import Mathlib

set_option maxHeartbeats 2000000

/-!
Verification of the scan-classify-quarantine pipeline of the file-organizer
repository (organizer.py, security.py).  The Python functions are shallowly
embedded as executable Lean definitions: filesystem and subprocess outcomes
(scan verdicts, move failures, tool availability) are passed in explicitly as
data, machine integers are `Nat`, and Python exceptions are `Except` values or
explicit outcome flags.  Wall-clock fields (`time_taken_sec`) are omitted.
-/

namespace FileOrganizer

/-! ## Classifier (organizer.py: `FILE_CATEGORIES`, `get_category`)

The Python dict iterates in insertion order, so the table is a list. -/

def FILE_CATEGORIES : List (String × List String) :=
  [("Documents", [".pdf", ".docx", ".txt", ".pptx", ".xlsx", ".csv"]),
   ("Images", [".jpg", ".jpeg", ".png", ".gif", ".bmp", ".svg"]),
   ("Videos", [".mp4", ".mkv", ".avi", ".mov"]),
   ("Music", [".mp3", ".wav", ".aac", ".flac"]),
   ("Archives", [".zip", ".rar", ".tar", ".gz"])]

/-- First-match lookup over the category table, as the Python `for` loop. -/
def lookupCategory (ext : String) : List (String × List String) → Option String
  | [] => none
  | (cat, exts) :: rest => if ext ∈ exts then some cat else lookupCategory ext rest

/-- Python `str.lower` (ASCII range, as `Char.toLower`), computable by kernel
reduction (`String.toLower` itself is defined by well-founded recursion). -/
def pyLower (s : String) : String := String.mk (s.data.map Char.toLower)

/-- Python `str.capitalize`: first character upper-cased, rest lower-cased. -/
def pyCapitalize (s : String) : String :=
  match s.data with
  | [] => ""
  | c :: cs => String.mk (c.toUpper :: cs.map Char.toLower)

/-- Python `mime.split("/")[0]`: the text before the first slash (the whole
string when no slash occurs), computable by kernel reduction. -/
def primaryType (mime : String) : String :=
  String.mk (mime.data.takeWhile (fun c => c != '/'))

/-- organizer.py `get_category`.  `guess` embeds `mimetypes.guess_type`
(Python standard library, an external table): it receives the probe string
`"file" + ext` exactly as in the source and returns the guessed
content-type, or `none`. -/
def get_category (guess : String → Option String) (extension : String) : String :=
  let ext := pyLower extension
  match lookupCategory ext FILE_CATEGORIES with
  | some cat => cat
  | none =>
    match guess ("file" ++ ext) with
    | some mime =>
      let mt := primaryType mime
      if mt ∈ ["image", "video", "audio"] then pyCapitalize mt ++ "s" else "Others"
    | none => "Others"

/-! ### Helper lemmas for the classifier -/

theorem lookupCategory_first_match (ext : String) :
    ∀ (tbl : List (String × List String)) (j : Nat) (cat : String) (exts : List String),
      tbl.get? j = some (cat, exts) → ext ∈ exts →
      (∀ k cat' exts', k < j → tbl.get? k = some (cat', exts') → ext ∉ exts') →
      lookupCategory ext tbl = some cat := by
  intro tbl
  induction tbl with
  | nil => intro j cat exts h; simp at h
  | cons p rest ih =>
    intro j cat exts hj hmem hfirst
    obtain ⟨c0, e0⟩ := p
    cases j with
    | zero =>
      simp only [List.get?] at hj
      have hpair : c0 = cat ∧ e0 = exts := by
        have := Option.some.inj hj
        exact ⟨congrArg Prod.fst this, congrArg Prod.snd this⟩
      rcases hpair with ⟨hc, he⟩
      subst hc
      subst he
      simp [lookupCategory, hmem]
    | succ j' =>
      have h0 : ext ∉ e0 := hfirst 0 c0 e0 (Nat.succ_pos j') rfl
      simp only [lookupCategory, if_neg h0]
      exact ih j' cat exts hj hmem
        (fun k c' e' hk hget => hfirst (k + 1) c' e' (Nat.succ_lt_succ hk) hget)

theorem lookupCategory_none (ext : String) :
    ∀ (tbl : List (String × List String)),
      (∀ p ∈ tbl, ext ∉ p.2) → lookupCategory ext tbl = none := by
  intro tbl
  induction tbl with
  | nil => intro _; rfl
  | cons p rest ih =>
    intro h
    have h0 : ext ∉ p.2 := h p (List.mem_cons_self p rest)
    simp only [lookupCategory, if_neg h0]
    exact ih fun q hq => h q (List.mem_cons_of_mem p hq)

/-! ## Scanner Adapter (security.py: `_clamd_scan_file`, `_clamscan_fallback`,
`scan_file`, `verify_mime`)

External-world outcomes (availability of `pyclamd` / `python-magic`, the
daemon's answer, the `clamscan` subprocess result) are inputs of the model. -/

/-- Does `needle` occur at the head of `hay`? (Python list/str comparison.) -/
def leadsWith [DecidableEq α] : List α → List α → Bool
  | [], _ => true
  | _ :: _, [] => false
  | a :: as, b :: bs => a = b && leadsWith as bs

/-- Does `needle` occur anywhere inside `hay`? -/
def occursIn [DecidableEq α] (needle : List α) : List α → Bool
  | [] => needle.isEmpty
  | b :: bs => leadsWith needle (b :: bs) || occursIn needle bs

/-- Python `needle in hay` on strings (substring containment). -/
def strContains (hay needle : String) : Bool := occursIn needle.data hay.data

/-- What the pyclamd daemon round-trip does on one call: raise, answer clean
(`None`), or answer with a `(state, signature)` pair such as
`("FOUND", "Eicar-Test-Signature")`. -/
inductive ClamdOutcome where
  | raises (msg : String)
  | clean
  | found (state sig : String)
deriving DecidableEq

/-- What the `clamscan` subprocess invocation does: the binary is missing
(`FileNotFoundError`), some other exception, or it runs and produces combined
stdout+stderr text. -/
inductive ClamscanOutcome where
  | notInstalled
  | raises (msg : String)
  | output (out : String)
deriving DecidableEq

/-- Environment of one `scan_file` call. -/
structure ScanEnv where
  havePyclamd : Bool
  clamd : ClamdOutcome
  clamscan : ClamscanOutcome
deriving DecidableEq

/-- security.py `_clamd_scan_file`: `None` unless pyclamd is importable and the
daemon reports a detection; every exception is caught and becomes `None`.
The result dict's single value is the `(state, signature)` pair. -/
def clamd_scan_file (env : ScanEnv) : Option (String × String) :=
  if env.havePyclamd then
    match env.clamd with
    | ClamdOutcome.found st sig => some (st, sig)
    | _ => none
  else none

/-- security.py `_clamscan_fallback`: parse the subprocess output for the
tokens `"OK"` / `"FOUND"`; `FileNotFoundError` means clamscan is absent. -/
def clamscan_fallback (env : ScanEnv) : Bool × String :=
  match env.clamscan with
  | ClamscanOutcome.notInstalled => (false, "clamscan-not-installed")
  | ClamscanOutcome.raises e => (false, "clamscan-error: " ++ e)
  | ClamscanOutcome.output out =>
    if strContains out "OK" then (false, "OK")
    else if strContains out "FOUND" then
      let parts := out.splitOn ":"
      if parts.length ≥ 2 then (true, (parts.getD 1 out).trim)
      else (true, out.trim)
    else (false, out.trim)

/-- The verdict dict `{ "path": .., "infected": .., "detail": .. }`. -/
structure Verdict where
  path : String
  infected : Bool
  detail : String
deriving DecidableEq

/-- security.py `scan_file`.  With pyclamd importable the daemon answer is
mapped (`detail = "<sig> (<state>)"`, or `"OK (clamd)"` when the answer is
`None` — which is also what every swallowed daemon exception becomes);
otherwise the clamscan fallback runs.  The `except` in the source's pyclamd
branch is unreachable because `_clamd_scan_file` already catches everything
and a truthy pyclamd result is a non-empty dict of pairs. -/
def scan_file (env : ScanEnv) (path : String) : Verdict :=
  if env.havePyclamd then
    match clamd_scan_file env with
    | some v => ⟨path, true, v.2 ++ " (" ++ v.1 ++ ")"⟩
    | none => ⟨path, false, "OK (clamd)"⟩
  else
    let r := clamscan_fallback env
    ⟨path, r.1, r.2⟩

/-- What `magic.from_file` does on one call: the library is not importable,
the call raises, or it detects a content-type string. -/
inductive MagicOutcome where
  | unavailable
  | raises (msg : String)
  | detects (mime : String)
deriving DecidableEq

/-- The dict `{ "path": .., "mime": .., "match": .., "detail": .. }`;
`matchResult` embeds the `"match"` key. -/
structure MimeCheck where
  path : String
  mime : Option String
  matchResult : Option Bool
  detail : String
deriving DecidableEq

/-- security.py `verify_mime`.  Note the except branch returns
`match: False` (not `None`), and a present-but-empty expected prefix is falsy
in Python, leaving `match = None`. -/
def verify_mime (env : MagicOutcome) (path : String) (expected : Option String) :
    MimeCheck :=
  match env with
  | MagicOutcome.unavailable => ⟨path, none, none, "python-magic not installed"⟩
  | MagicOutcome.raises e => ⟨path, none, some false, "magic-error: " ++ e⟩
  | MagicOutcome.detects mime =>
    let m : Option Bool :=
      match expected with
      | some p => if p.isEmpty then none else some (strContains mime p)
      | none => none
    ⟨path, some mime, m, "OK"⟩

/-! ## Quarantine Store (security.py: `move_to_quarantine`,
`restore_from_quarantine`, `delete_from_quarantine`)

The quarantine directory is modelled by the list of filenames it holds (a
directory never holds a name twice, so callers pass `Nodup` lists where that
matters).  `move_to_quarantine` receives the source's stem and suffix
(`Path.stem` / `Path.suffix`, with `name = stem ++ suffix`) plus whether the
source exists, and returns the new quarantine listing. -/

/-- Decimal digits of `n`, least significant first, by fuel recursion
(`fuel ≥ n` suffices); computable by kernel reduction. -/
def natDigitsAux : Nat → Nat → List Nat
  | 0, _ => []
  | fuel + 1, n => if n = 0 then [] else n % 10 :: natDigitsAux fuel (n / 10)

def natDigits (n : Nat) : List Nat := natDigitsAux n n

/-- The character of one decimal digit (`d < 10`). -/
def digitCh (d : Nat) : Char := Char.ofNat (48 + d)

/-- Python `str(n)` for a natural number. -/
def natStr (n : Nat) : String :=
  if n = 0 then "0" else String.mk ((natDigits n).reverse.map digitCh)

theorem natDigitsAux_eq_digits :
    ∀ (fuel n : Nat), n ≤ fuel → natDigitsAux fuel n = Nat.digits 10 n := by
  intro fuel
  induction fuel with
  | zero =>
    intro n hn
    have h0 : n = 0 := by omega
    subst h0
    simp [natDigitsAux]
  | succ f ih =>
    intro n hn
    by_cases h0 : n = 0
    · subst h0; simp [natDigitsAux]
    · have hdiv : n / 10 ≤ f := by
        have h1 : n / 10 < n := Nat.div_lt_self (Nat.pos_of_ne_zero h0) (by norm_num)
        omega
      have : Nat.digits 10 n = n % 10 :: Nat.digits 10 (n / 10) :=
        Nat.digits_def' (by norm_num) (Nat.pos_of_ne_zero h0)
      simp only [natDigitsAux, if_neg h0, ih _ hdiv, this]

theorem natDigits_eq_digits (n : Nat) : natDigits n = Nat.digits 10 n :=
  natDigitsAux_eq_digits n n (Nat.le_refl n)

theorem digitCh_inj_lt {a b : Nat} (ha : a < 10) (hb : b < 10)
    (h : digitCh a = digitCh b) : a = b := by
  have key : ∀ x y : Fin 10, digitCh x.val = digitCh y.val → x = y := by decide
  have := key ⟨a, ha⟩ ⟨b, hb⟩ h
  exact congrArg Fin.val this

theorem map_digitCh_inj :
    ∀ (l₁ l₂ : List Nat), (∀ x ∈ l₁, x < 10) → (∀ x ∈ l₂, x < 10) →
      l₁.map digitCh = l₂.map digitCh → l₁ = l₂ := by
  intro l₁
  induction l₁ with
  | nil => intro l₂ _ _ h; cases l₂ <;> simp_all
  | cons a as ih =>
    intro l₂ h₁ h₂ h
    cases l₂ with
    | nil => simp at h
    | cons b bs =>
      simp only [List.map_cons, List.cons.injEq] at h
      have ha : a < 10 := h₁ a (List.mem_cons_self a as)
      have hb : b < 10 := h₂ b (List.mem_cons_self b bs)
      have hab := digitCh_inj_lt ha hb h.1
      have htail := ih bs (fun x hx => h₁ x (List.mem_cons_of_mem a hx))
        (fun x hx => h₂ x (List.mem_cons_of_mem b hx)) h.2
      rw [hab, htail]

theorem natStr_eq_zero_iff (n : Nat) : natStr n = "0" ↔ n = 0 := by
  constructor
  · intro h
    by_contra hn
    simp only [natStr, if_neg hn] at h
    have hdata : (natDigits n).reverse.map digitCh = ['0'] := by
      have h1 := congrArg String.data h
      have h0 : ("0" : String).data = ['0'] := by decide
      rw [h0] at h1
      exact h1
    have hlen : (natDigits n).reverse.length = 1 := by
      have := congrArg List.length hdata
      simpa using this
    rcases List.length_eq_one.mp hlen with ⟨d, hd⟩
    have hdig : natDigits n = [d] := by
      have := congrArg List.reverse hd
      simpa using this
    have hdigits : Nat.digits 10 n = [d] := by rw [← natDigits_eq_digits]; exact hdig
    have hmap : digitCh d = '0' := by
      rw [hd] at hdata
      simpa using hdata
    have hd10 : d < 10 := Nat.digits_lt_base (by norm_num) (by
      rw [hdigits]; exact List.mem_cons_self d [])
    have hd0 : d = 0 := by
      have h0 : digitCh 0 = '0' := by decide
      exact digitCh_inj_lt hd10 (by norm_num) (by rw [hmap, h0])
    have hzero : n = 0 := by
      have hof := Nat.ofDigits_digits 10 n
      rw [hdigits, hd0] at hof
      simpa [Nat.ofDigits] using hof.symm
    exact hn hzero
  · intro h; subst h; rfl

theorem natStr_inj : Function.Injective natStr := by
  intro m n h
  by_cases hm : m = 0
  · subst hm
    have h0 : natStr n = "0" := by rw [← h]; rfl
    have := (natStr_eq_zero_iff n).mp h0
    omega
  by_cases hn : n = 0
  · subst hn
    have h0 : natStr m = "0" := by rw [h]; rfl
    have := (natStr_eq_zero_iff m).mp h0
    omega
  simp only [natStr, if_neg hm, if_neg hn] at h
  have hdata : ((natDigits m).reverse.map digitCh) = ((natDigits n).reverse.map digitCh) :=
    congrArg String.data h
  have hb₁ : ∀ x ∈ (natDigits m).reverse, x < 10 := by
    intro x hx
    rw [List.mem_reverse, natDigits_eq_digits] at hx
    exact Nat.digits_lt_base (by norm_num) hx
  have hb₂ : ∀ x ∈ (natDigits n).reverse, x < 10 := by
    intro x hx
    rw [List.mem_reverse, natDigits_eq_digits] at hx
    exact Nat.digits_lt_base (by norm_num) hx
  have hrev := map_digitCh_inj _ _ hb₁ hb₂ hdata
  have hdig : natDigits m = natDigits n := by
    have := congrArg List.reverse hrev
    simpa using this
  rw [natDigits_eq_digits, natDigits_eq_digits] at hdig
  exact Nat.digits.injective 10 hdig

/-- The collision name `f"{base}_{counter}{suf}"`. -/
def pyName (base suf : String) (c : Nat) : String := base ++ "_" ++ natStr c ++ suf

theorem pyName_inj (base suf : String) {a b : Nat}
    (h : pyName base suf a = pyName base suf b) : a = b := by
  have hdata := congrArg String.data h
  simp only [pyName, String.data_append] at hdata
  have h1 := List.append_cancel_right hdata
  have h2 := List.append_cancel_left h1
  exact natStr_inj (String.ext h2)

/-- The `while dest.exists()` search of `move_to_quarantine`: try
`base_c suf`, `base_{c+1} suf`, … until a name free in `q` is found.  The
source's loop is unbounded; `fuel = q.length + 1` provably suffices
(`destSearch_spec` below), so the fuel-exhausted base case is unreachable. -/
def destSearch (q : List String) (base suf : String) : Nat → Nat → String
  | 0, c => pyName base suf c
  | fuel + 1, c =>
    if pyName base suf c ∈ q then destSearch q base suf fuel (c + 1)
    else pyName base suf c

/-- The destination filename `move_to_quarantine` picks: the plain source
name if free, else the first free suffixed name counting from 1. -/
def quarantineDest (q : List String) (base suf : String) : String :=
  if (base ++ suf) ∈ q then destSearch q base suf (q.length + 1) 1
  else base ++ suf

/-- security.py `move_to_quarantine`: `FileNotFoundError` when the source is
absent, otherwise move to the collision-free destination and return it
together with the new quarantine listing. -/
def move_to_quarantine (q : List String) (srcExists : Bool) (base suf : String) :
    Except String (String × List String) :=
  if srcExists then
    let dest := quarantineDest q base suf
    Except.ok (dest, q ++ [dest])
  else Except.error "FileNotFoundError"

/-- security.py `restore_from_quarantine`: `FileNotFoundError` when the name
is not in quarantine, else move it out to `dest_folder` under its own name. -/
def restore_from_quarantine (q : List String) (dest_folder filename : String) :
    Except String (String × List String) :=
  if filename ∈ q then Except.ok (dest_folder ++ "/" ++ filename, q.erase filename)
  else Except.error filename

/-- security.py `delete_from_quarantine`: `False` when already absent. -/
def delete_from_quarantine (q : List String) (filename : String) :
    Bool × List String :=
  if filename ∈ q then (true, q.erase filename) else (false, q)

theorem destSearch_free (q : List String) (base suf : String) :
    ∀ (fuel c : Nat), (∃ j < fuel, pyName base suf (c + j) ∉ q) →
      destSearch q base suf fuel c ∉ q := by
  intro fuel
  induction fuel with
  | zero => intro c h; rcases h with ⟨j, hj, _⟩; omega
  | succ f ih =>
    intro c h
    by_cases hc : pyName base suf c ∈ q
    · simp only [destSearch, if_pos hc]
      rcases h with ⟨j, hj, hfree⟩
      cases j with
      | zero => simp at hfree; exact absurd hc hfree
      | succ j' =>
        exact ih (c + 1) ⟨j', by omega, by
          have : c + 1 + j' = c + (j' + 1) := by omega
          rw [this]; exact hfree⟩
    · simp only [destSearch, if_neg hc]
      exact hc

theorem exists_free_pyName (q : List String) (base suf : String) (c : Nat) :
    ∃ j < q.length + 1, pyName base suf (c + j) ∉ q := by
  by_contra hall
  push_neg at hall
  have hinj : Function.Injective (fun j : Fin (q.length + 1) => pyName base suf (c + j.val)) := by
    intro x y hxy
    have := pyName_inj base suf hxy
    exact Fin.ext (by omega)
  have hsub : (Finset.univ.image (fun j : Fin (q.length + 1) => pyName base suf (c + j.val)))
      ⊆ q.toFinset := by
    intro x hx
    rcases Finset.mem_image.mp hx with ⟨j, _, hj⟩
    rw [List.mem_toFinset]
    rw [← hj]
    exact hall j.val j.isLt
  have hcard := Finset.card_le_card hsub
  rw [Finset.card_image_of_injective _ hinj, Finset.card_univ, Fintype.card_fin] at hcard
  have := List.toFinset_card_le (l := q)
  omega

theorem destSearch_shape (q : List String) (base suf : String) :
    ∀ (fuel c : Nat), ∃ m : Nat, c ≤ m ∧ destSearch q base suf fuel c = pyName base suf m := by
  intro fuel
  induction fuel with
  | zero => intro c; exact ⟨c, Nat.le_refl c, rfl⟩
  | succ f ih =>
    intro c
    by_cases hc : pyName base suf c ∈ q
    · rcases ih (c + 1) with ⟨m, hm, heq⟩
      exact ⟨m, by omega, by simp only [destSearch, if_pos hc]; exact heq⟩
    · exact ⟨c, Nat.le_refl c, by simp only [destSearch, if_neg hc]⟩

/-- The chosen destination is free in the current quarantine listing. -/
theorem quarantineDest_not_mem (q : List String) (base suf : String) :
    quarantineDest q base suf ∉ q := by
  unfold quarantineDest
  by_cases h : (base ++ suf) ∈ q
  · rw [if_pos h]
    exact destSearch_free q base suf (q.length + 1) 1 (exists_free_pyName q base suf 1)
  · rw [if_neg h]
    exact h

/-- The chosen destination is the plain name or a `_N`-suffixed name, N ≥ 1. -/
theorem quarantineDest_shape (q : List String) (base suf : String) :
    quarantineDest q base suf = base ++ suf ∨
      ∃ n : Nat, 1 ≤ n ∧ quarantineDest q base suf = pyName base suf n := by
  unfold quarantineDest
  by_cases h : (base ++ suf) ∈ q
  · rw [if_pos h]
    rcases destSearch_shape q base suf (q.length + 1) 1 with ⟨m, hm, heq⟩
    exact Or.inr ⟨m, hm, heq⟩
  · rw [if_neg h]
    exact Or.inl rfl

/-! ## Pipeline Orchestrator (organizer.py: `organize_files`)

One run over the candidate list.  Each candidate carries its attributes and
the outcome every external action would have on it: the scan verdict
(`scan_file` is total, claim C7), whether `security.move_to_quarantine`
succeeds, whether `file.stat()` succeeds (a vanished file raises here), and
whether `mkdir`/`shutil.move` succeed.  Progress percentages
`int((i / total) * 50)` are embedded as `i * 50 / total` (Nat floor
division).  `time_taken_sec` and the callback-presence guard are omitted:
progress events are collected in order. -/

structure Candidate where
  name : String
  ext : String
  size : Nat
  scanInfected : Bool
  scanDetail : String
  quarantineOk : Bool
  quarantineErr : String
  statOk : Bool
  statErr : String
  moveOk : Bool
  moveErr : String
deriving DecidableEq

structure SecurityCounters where
  scanned : Nat
  infected : Nat
  quarantined : Nat
  clean : Nat
deriving DecidableEq

structure Analytics where
  total_files : Nat
  total_size_bytes : Nat
  categories : List (String × Nat)
  security_scan : SecurityCounters
deriving DecidableEq

structure RunState where
  logs : List String
  analytics : Analytics
  events : List (Nat × String)
deriving DecidableEq

/-- `analytics["categories"].setdefault(cat, 0)` + `+= 1` on an
insertion-ordered dict. -/
def bumpCat : List (String × Nat) → String → List (String × Nat)
  | [], cat => [(cat, 1)]
  | (k, v) :: rest, cat =>
    if k = cat then (k, v + 1) :: rest else (k, v) :: bumpCat rest cat

def addLog (s : String) (st : RunState) : RunState :=
  { st with logs := st.logs ++ [s] }

def addEvent (pct : Nat) (msg : String) (st : RunState) : RunState :=
  { st with events := st.events ++ [(pct, msg)] }

def mapSec (f : SecurityCounters → SecurityCounters) (st : RunState) : RunState :=
  { st with analytics :=
      { st.analytics with security_scan := f st.analytics.security_scan } }

/-- Lines 88–103 of organizer.py: the organize phase of one candidate.
`file.stat()` raising (vanished file / permission error) aborts before any
accumulation; `mkdir`/`shutil.move` raising aborts after byte size and
category count were already accumulated and the organize-phase progress event
was already emitted.  Either exception is caught by the loop's `except` and
logged as `Error moving …`. -/
def organizePhase (guess : String → Option String) (total i : Nat)
    (c : Candidate) (st : RunState) : RunState :=
  if c.statOk then
    let st1 := { st with analytics :=
      { st.analytics with total_size_bytes := st.analytics.total_size_bytes + c.size } }
    let cat := get_category guess c.ext
    let st2 := { st1 with analytics :=
      { st1.analytics with categories := bumpCat st1.analytics.categories cat } }
    let st3 := addEvent (i * 50 / total + 50) ("📁 Organizing " ++ c.name ++ "...") st2
    if c.moveOk then addLog ("Moved: " ++ c.name ++ " → " ++ cat) st3
    else addLog ("Error moving " ++ c.name ++ ": " ++ c.moveErr) st3
  else addLog ("Error moving " ++ c.name ++ ": " ++ c.statErr) st

/-- Lines 63–105 of organizer.py: one loop iteration on candidate `i` (1-based).
With security enabled: scan event, `scanned += 1`; an infected verdict
quarantines — `infected` and `quarantined` are incremented only when
`move_to_quarantine` succeeds — and always skips the organize phase
(`continue`); a clean verdict increments `clean` and proceeds. -/
def stepCandidate (guess : String → Option String) (sec : Bool) (total i : Nat)
    (c : Candidate) (st : RunState) : RunState :=
  if sec then
    let st1 := addEvent (i * 50 / total) ("🔒 Scanning " ++ c.name ++ "...") st
    let st2 := mapSec (fun s => { s with scanned := s.scanned + 1 }) st1
    if c.scanInfected then
      if c.quarantineOk then
        mapSec (fun s => { s with infected := s.infected + 1, quarantined := s.quarantined + 1 })
          (addLog ("🚨 THREAT DETECTED & QUARANTINED: " ++ c.name ++ " → " ++ c.scanDetail) st2)
      else
        addLog ("🚨 INFECTED: " ++ c.name ++ " (quarantine failed: " ++ c.quarantineErr ++ ")") st2
    else
      organizePhase guess total i c
        (addLog ("✓ Security check passed: " ++ c.name)
          (mapSec (fun s => { s with clean := s.clean + 1 }) st2))
  else organizePhase guess total i c st

/-- The `for i, file in enumerate(files, start=1)` loop. -/
def runLoop (guess : String → Option String) (sec : Bool) (total : Nat) :
    Nat → List Candidate → RunState → RunState
  | _, [], st => st
  | i, c :: rest, st =>
    runLoop guess sec total (i + 1) rest (stepCandidate guess sec total i c st)

def initState (total : Nat) : RunState :=
  { logs := [], events := [],
    analytics := { total_files := total, total_size_bytes := 0, categories := [],
                   security_scan := ⟨0, 0, 0, 0⟩ } }

/-- organizer.py `organize_files`.  After the loop: the security summary lines
are inserted at the head of the log, the final 100% event (plus the threat
event when any were counted infected) is emitted, and the chart block — whose
body always raises `NameError` because `plt` is never imported — appends its
failure line whenever any category was counted. -/
def organize_files (guess : String → Option String) (files : List Candidate)
    (sec : Bool) : RunState :=
  let total := files.length
  if total = 0 then
    { initState 0 with events := [(100, "No files to organize")] }
  else
    let st := runLoop guess sec total 1 files (initState total)
    let st :=
      if sec then
        let inf := st.analytics.security_scan.infected
        let alerts :=
          if inf > 0 then
            ["⚠️ Security Alert: " ++ natStr inf ++ " threat(s) detected and quarantined!"]
          else []
        { st with logs :=
            ("🔒 Security: " ++ natStr st.analytics.security_scan.clean ++
              " files scanned and verified safe.") :: (alerts ++ st.logs) }
      else st
    let st := addEvent 100 ("Completed — " ++ natStr st.analytics.total_files ++ " files") st
    let st :=
      if sec ∧ st.analytics.security_scan.infected > 0 then
        addEvent 100 ("⚠️ " ++ natStr st.analytics.security_scan.infected ++
          " threat(s) quarantined!") st
      else st
    if st.analytics.categories.isEmpty then st
    else addLog "⚠️ Failed to generate chart: name 'plt' is not defined" st

/-! ### Helper lemmas about the orchestrator -/

theorem organizePhase_sec (guess : String → Option String) (total i : Nat)
    (c : Candidate) (st : RunState) :
    (organizePhase guess total i c st).analytics.security_scan =
      st.analytics.security_scan := by
  unfold organizePhase
  cases hs : c.statOk
  · simp [addLog]
  · cases hm : c.moveOk <;> simp [addLog, addEvent]

theorem organizePhase_total_files (guess : String → Option String) (total i : Nat)
    (c : Candidate) (st : RunState) :
    (organizePhase guess total i c st).analytics.total_files =
      st.analytics.total_files := by
  unfold organizePhase
  cases hs : c.statOk
  · simp [addLog]
  · cases hm : c.moveOk <;> simp [addLog, addEvent]

theorem organizePhase_events (guess : String → Option String) (total i : Nat)
    (c : Candidate) (st : RunState) :
    (organizePhase guess total i c st).events =
      st.events ++
        (if c.statOk then [(i * 50 / total + 50, "📁 Organizing " ++ c.name ++ "...")]
         else []) := by
  unfold organizePhase
  cases hs : c.statOk
  · simp [addLog]
  · cases hm : c.moveOk <;> simp [addLog, addEvent]

theorem stepCandidate_scanned (guess : String → Option String) (total i : Nat)
    (c : Candidate) (st : RunState) :
    (stepCandidate guess true total i c st).analytics.security_scan.scanned =
      st.analytics.security_scan.scanned + 1 := by
  unfold stepCandidate
  cases hInf : c.scanInfected
  · rw [if_pos rfl, if_neg (by simp [hInf])]
    rw [organizePhase_sec]
    simp [addLog, mapSec, addEvent]
  · cases hQ : c.quarantineOk <;>
      simp [hInf, hQ, mapSec, addLog, addEvent]

theorem stepCandidate_infected (guess : String → Option String) (total i : Nat)
    (c : Candidate) (st : RunState) :
    (stepCandidate guess true total i c st).analytics.security_scan.infected =
      st.analytics.security_scan.infected +
        (if c.scanInfected && c.quarantineOk then 1 else 0) := by
  unfold stepCandidate
  cases hInf : c.scanInfected
  · rw [if_pos rfl, if_neg (by simp [hInf])]
    rw [organizePhase_sec]
    simp [addLog, mapSec, addEvent]
  · cases hQ : c.quarantineOk <;>
      simp [hInf, hQ, mapSec, addLog, addEvent]

theorem stepCandidate_quarantined (guess : String → Option String) (total i : Nat)
    (c : Candidate) (st : RunState) :
    (stepCandidate guess true total i c st).analytics.security_scan.quarantined =
      st.analytics.security_scan.quarantined +
        (if c.scanInfected && c.quarantineOk then 1 else 0) := by
  unfold stepCandidate
  cases hInf : c.scanInfected
  · rw [if_pos rfl, if_neg (by simp [hInf])]
    rw [organizePhase_sec]
    simp [addLog, mapSec, addEvent]
  · cases hQ : c.quarantineOk <;>
      simp [hInf, hQ, mapSec, addLog, addEvent]

theorem stepCandidate_clean (guess : String → Option String) (total i : Nat)
    (c : Candidate) (st : RunState) :
    (stepCandidate guess true total i c st).analytics.security_scan.clean =
      st.analytics.security_scan.clean + (if c.scanInfected then 0 else 1) := by
  unfold stepCandidate
  cases hInf : c.scanInfected
  · rw [if_pos rfl, if_neg (by simp [hInf])]
    rw [organizePhase_sec]
    simp [addLog, mapSec, addEvent]
  · cases hQ : c.quarantineOk <;>
      simp [hInf, hQ, mapSec, addLog, addEvent]

/-- With security disabled the loop body is just the organize phase, which
never touches the security counters. -/
theorem runLoop_nosec_sec (guess : String → Option String) (total : Nat) :
    ∀ (files : List Candidate) (i : Nat) (st : RunState),
      (runLoop guess false total i files st).analytics.security_scan =
        st.analytics.security_scan := by
  intro files
  induction files with
  | nil => intro i st; rfl
  | cons c rest ih =>
    intro i st
    simp only [runLoop]
    rw [ih]
    simp only [stepCandidate, if_neg (Bool.false_ne_true), organizePhase_sec]

/-- Number of candidates counted as infected-and-quarantined by a run. -/
def countQuarantined (files : List Candidate) : Nat :=
  (files.filter (fun c => c.scanInfected && c.quarantineOk)).length

/-- Number of candidates counted clean by a security-enabled run. -/
def countClean (files : List Candidate) : Nat :=
  (files.filter (fun c => !c.scanInfected)).length

theorem runLoop_counters (guess : String → Option String) (total : Nat) :
    ∀ (files : List Candidate) (i : Nat) (st : RunState),
      (runLoop guess true total i files st).analytics.security_scan.scanned =
          st.analytics.security_scan.scanned + files.length ∧
      (runLoop guess true total i files st).analytics.security_scan.infected =
          st.analytics.security_scan.infected + countQuarantined files ∧
      (runLoop guess true total i files st).analytics.security_scan.quarantined =
          st.analytics.security_scan.quarantined + countQuarantined files ∧
      (runLoop guess true total i files st).analytics.security_scan.clean =
          st.analytics.security_scan.clean + countClean files := by
  intro files
  induction files with
  | nil =>
    intro i st
    simp [runLoop, countQuarantined, countClean]
  | cons c rest ih =>
    intro i st
    simp only [runLoop]
    rcases ih (i + 1) (stepCandidate guess true total i c st) with ⟨h1, h2, h3, h4⟩
    refine ⟨?_, ?_, ?_, ?_⟩
    · rw [h1, stepCandidate_scanned]
      simp [List.length_cons]
      omega
    · rw [h2, stepCandidate_infected]
      simp only [countQuarantined, List.filter_cons]
      cases hc : (c.scanInfected && c.quarantineOk) <;> simp [hc] <;> omega
    · rw [h3, stepCandidate_quarantined]
      simp only [countQuarantined, List.filter_cons]
      cases hc : (c.scanInfected && c.quarantineOk) <;> simp [hc] <;> omega
    · rw [h4, stepCandidate_clean]
      simp only [countClean, List.filter_cons]
      cases hc : c.scanInfected <;> simp [hc] <;> omega

/-- The post-loop epilogue of `organize_files` (summary log lines, final
progress events, chart block) never changes the analytics record. -/
theorem organize_files_analytics (guess : String → Option String)
    (files : List Candidate) (sec : Bool) :
    (organize_files guess files sec).analytics =
      if files.length = 0 then (initState 0).analytics
      else (runLoop guess sec files.length 1 files (initState files.length)).analytics := by
  unfold organize_files
  by_cases h : files.length = 0
  · simp [h]
  · simp only [if_neg h]
    repeat' split
    all_goals simp_all [addEvent, addLog]

/-! ### Progress-percent lemmas (security disabled) -/

theorem pct_mono {total i j : Nat} (h : i ≤ j) :
    i * 50 / total + 50 ≤ j * 50 / total + 50 := by
  have := Nat.div_le_div_right (c := total) (Nat.mul_le_mul_right 50 h)
  omega

theorem pct_le_100 {total i : Nat} (htot : 0 < total) (h : i ≤ total) :
    i * 50 / total + 50 ≤ 100 := by
  have h1 : i * 50 / total ≤ total * 50 / total :=
    Nat.div_le_div_right (Nat.mul_le_mul_right 50 h)
  have h2 : total * 50 / total = 50 := by
    rw [Nat.mul_comm]
    exact Nat.mul_div_cancel 50 htot
  omega

theorem chain'_concat_of_le {l : List Nat} {x : Nat}
    (hc : List.Chain' (· ≤ ·) l) (hb : ∀ p ∈ l, p ≤ x) :
    List.Chain' (· ≤ ·) (l ++ [x]) := by
  rw [List.chain'_append]
  refine ⟨hc, List.chain'_singleton x, ?_⟩
  intro a ha b hb'
  have haL : a ∈ l := List.mem_of_getLast?_eq_some ha
  have hbx : x = b := by simpa using hb'
  rw [← hbx]
  exact hb a haL

/-- Loop invariant with security disabled: the emitted percentages stay
sorted, below the next candidate's organize percentage, and below 100. -/
theorem runLoop_nosec_pcts (guess : String → Option String) (total : Nat) :
    ∀ (files : List Candidate) (i : Nat) (st : RunState),
      0 < total → i + files.length = total + 1 →
      List.Chain' (· ≤ ·) (st.events.map Prod.fst) →
      (∀ p ∈ st.events.map Prod.fst, p ≤ i * 50 / total + 50) →
      (∀ p ∈ st.events.map Prod.fst, p ≤ 100) →
      List.Chain' (· ≤ ·) ((runLoop guess false total i files st).events.map Prod.fst) ∧
      (∀ p ∈ (runLoop guess false total i files st).events.map Prod.fst, p ≤ 100) := by
  intro files
  induction files with
  | nil =>
    intro i st _ _ hchain _ h100
    exact ⟨hchain, h100⟩
  | cons c rest ih =>
    intro i st htot hlen hchain hbound h100
    simp only [runLoop]
    have hstep : (stepCandidate guess false total i c st).events =
        st.events ++
          (if c.statOk then [(i * 50 / total + 50, "📁 Organizing " ++ c.name ++ "...")]
           else []) := by
      simp only [stepCandidate, if_neg (Bool.false_ne_true)]
      exact organizePhase_events guess total i c st
    have hi_le : i ≤ total := by
      have : rest.length + 1 ≥ 1 := by omega
      simp only [List.length_cons] at hlen
      omega
    have hlen' : i + 1 + rest.length = total + 1 := by
      simp only [List.length_cons] at hlen
      omega
    apply ih (i + 1) (stepCandidate guess false total i c st) htot hlen'
    · rw [hstep]
      cases hs : c.statOk
      · simpa using hchain
      · simp only [if_pos rfl, List.map_append, List.map_cons, List.map_nil]
        exact chain'_concat_of_le hchain hbound
    · rw [hstep]
      cases hs : c.statOk
      · simp only [if_neg (Bool.false_ne_true), List.append_nil]
        intro p hp
        exact Nat.le_trans (hbound p hp) (pct_mono (Nat.le_succ i))
      · simp only [if_pos rfl, List.map_append, List.map_cons, List.map_nil]
        intro p hp
        rcases List.mem_append.mp hp with hp | hp
        · exact Nat.le_trans (hbound p hp) (pct_mono (Nat.le_succ i))
        · have : p = i * 50 / total + 50 := by simpa using hp
          rw [this]
          exact pct_mono (Nat.le_succ i)
    · rw [hstep]
      cases hs : c.statOk
      · simpa using h100
      · simp only [if_pos rfl, List.map_append, List.map_cons, List.map_nil]
        intro p hp
        rcases List.mem_append.mp hp with hp | hp
        · exact h100 p hp
        · have : p = i * 50 / total + 50 := by simpa using hp
          rw [this]
          exact pct_le_100 htot hi_le

/-- With security disabled, the event list of a non-empty run is the loop's
organize-phase events followed by the single final 100% event. -/
theorem organize_files_false_pcts (guess : String → Option String)
    (files : List Candidate) (h : files.length ≠ 0) :
    (organize_files guess files false).events.map Prod.fst =
      ((runLoop guess false files.length 1 files (initState files.length)).events.map
        Prod.fst) ++ [100] := by
  unfold organize_files
  simp only [if_neg h]
  repeat' split
  all_goals simp_all [addEvent, addLog]

/-! ## Claims -/

theorem length_partition_scanInfected :
    ∀ l : List Candidate,
      (l.filter (fun c => c.scanInfected)).length +
        (l.filter (fun c => !c.scanInfected)).length = l.length := by
  intro l
  induction l with
  | nil => rfl
  | cons a as ih => cases hp : a.scanInfected <;> simp [List.filter_cons, hp] <;> omega

/-- An infected candidate whose quarantine move-in fails. -/
def c1InfectedQFail : Candidate :=
  ⟨"v.exe", ".exe", 5, true, "Eicar-Test-Signature (FOUND)", false, "disk full",
    true, "", true, ""⟩

/-- C1: the claimed run-end invariant `scanned = infected + clean` fails on a
security-enabled run with one infected candidate whose quarantine move-in
fails: the code increments `infected` only after a successful
`move_to_quarantine`, so the run ends with scanned = 1, infected = 0,
clean = 0. -/
theorem C1_counterexample :
    (organize_files (fun _ => none) [c1InfectedQFail] true).analytics.security_scan.scanned
        = 1 ∧
    (organize_files (fun _ => none) [c1InfectedQFail] true).analytics.security_scan.infected
        = 0 ∧
    (organize_files (fun _ => none) [c1InfectedQFail] true).analytics.security_scan.clean
        = 0 ∧
    (organize_files (fun _ => none) [c1InfectedQFail] true).analytics.security_scan.scanned
        ≠
      (organize_files (fun _ => none) [c1InfectedQFail] true).analytics.security_scan.infected
        +
        (organize_files (fun _ => none) [c1InfectedQFail] true).analytics.security_scan.clean
    := by decide

/-- C1 (amended): in a security-enabled run in which every infected
candidate's quarantine move-in succeeds, the returned analytics satisfy
`scanned = infected + clean`; `quarantined ≤ infected` holds in every
security-enabled run, and on an empty folder all four counters are zero. -/
theorem C1_amended (guess : String → Option String) (files : List Candidate) :
    ((∀ c ∈ files, c.scanInfected = true → c.quarantineOk = true) →
        (organize_files guess files true).analytics.security_scan.scanned =
          (organize_files guess files true).analytics.security_scan.infected +
            (organize_files guess files true).analytics.security_scan.clean) ∧
      (organize_files guess files true).analytics.security_scan.quarantined ≤
        (organize_files guess files true).analytics.security_scan.infected ∧
      (organize_files guess [] true).analytics.security_scan = ⟨0, 0, 0, 0⟩ := by
  have hempty : (organize_files guess [] true).analytics.security_scan =
      (⟨0, 0, 0, 0⟩ : SecurityCounters) := by
    simp [organize_files, initState]
  have hsec := organize_files_analytics guess files true
  by_cases h : files.length = 0
  · have hf : files = [] := List.length_eq_zero.mp h
    subst hf
    refine ⟨fun _ => ?_, ?_, hempty⟩ <;> simp [hempty]
  · rcases runLoop_counters guess files.length files 1 (initState files.length) with
      ⟨h1, h2, h3, h4⟩
    refine ⟨?_, ?_, hempty⟩
    · intro hq
      rw [hsec, if_neg h]
      have hcong : files.filter (fun c => c.scanInfected && c.quarantineOk) =
          files.filter (fun c => c.scanInfected) := by
        apply List.filter_congr
        intro c hc
        cases hInf : c.scanInfected
        · simp
        · simp [hq c hc hInf]
      have hpart := length_partition_scanInfected files
      rw [h1, h2, h4]
      simp only [countQuarantined, hcong, countClean, initState]
      omega
    · rw [hsec, if_neg h, h2, h3]
      simp only [initState]
      omega

/-- C1 amended witness: two candidates, one infected with a successful
quarantine, one clean. -/
theorem C1_witness :
    (organize_files (fun _ => none)
        [⟨"v.exe", ".exe", 5, true, "Sig (FOUND)", true, "", true, "", true, ""⟩,
         ⟨"a.txt", ".txt", 3, false, "OK", true, "", true, "", true, ""⟩]
        true).analytics.security_scan.scanned =
      (organize_files (fun _ => none)
        [⟨"v.exe", ".exe", 5, true, "Sig (FOUND)", true, "", true, "", true, ""⟩,
         ⟨"a.txt", ".txt", 3, false, "OK", true, "", true, "", true, ""⟩]
        true).analytics.security_scan.infected +
      (organize_files (fun _ => none)
        [⟨"v.exe", ".exe", 5, true, "Sig (FOUND)", true, "", true, "", true, ""⟩,
         ⟨"a.txt", ".txt", 3, false, "OK", true, "", true, "", true, ""⟩]
        true).analytics.security_scan.clean :=
  (C1_amended (fun _ => none)
    [⟨"v.exe", ".exe", 5, true, "Sig (FOUND)", true, "", true, "", true, ""⟩,
     ⟨"a.txt", ".txt", 3, false, "OK", true, "", true, "", true, ""⟩]).1
    (by decide)

/-- A clean candidate whose `shutil.move` raises. -/
def c2MoveFail : Candidate :=
  ⟨"b.txt", ".txt", 7, false, "OK", true, "", true, "", false, "Permission denied"⟩

/-- A candidate that vanishes before `file.stat()`. -/
def c2Vanished : Candidate :=
  ⟨"gone.txt", ".txt", 4, false, "OK", true, "", false, "FileNotFoundError", true, ""⟩

/-- C2: a move failure is caught and logged and the run continues, but the
candidate's byte size and category count HAVE already been accumulated
(`total_size_bytes += size` and the category bump run before `shutil.move`),
so "does not increment that candidate's category count or add its byte size"
is false for move failures. -/
theorem C2_counterexample :
    (organize_files (fun _ => none) [c2MoveFail] false).logs =
      ["Error moving b.txt: Permission denied",
       "⚠️ Failed to generate chart: name 'plt' is not defined"] ∧
    (organize_files (fun _ => none) [c2MoveFail] false).analytics.total_size_bytes = 7 ∧
    (organize_files (fun _ => none) [c2MoveFail] false).analytics.categories =
      [("Documents", 1)] ∧
    (organize_files (fun _ => none) [c2MoveFail] false).analytics.total_size_bytes ≠ 0
    := by decide

/-- C2 (amended): every per-candidate error is caught, appends one textual
`Error moving …` entry to the run log, and the run continues (with security
enabled, every candidate is still scanned: `scanned = length`).  A failure at
`file.stat()` (vanished file) leaves the analytics untouched; a failure at
`mkdir`/`shutil.move` happens after the candidate's byte size and category
count were already accumulated, and they stay accumulated. -/
theorem C2_amended (guess : String → Option String) (total i : Nat)
    (c : Candidate) (st : RunState) :
    (c.statOk = false →
      organizePhase guess total i c st =
        addLog ("Error moving " ++ c.name ++ ": " ++ c.statErr) st) ∧
    (c.statOk = true → c.moveOk = false →
      (organizePhase guess total i c st).logs =
          st.logs ++ ["Error moving " ++ c.name ++ ": " ++ c.moveErr] ∧
      (organizePhase guess total i c st).analytics.total_size_bytes =
          st.analytics.total_size_bytes + c.size ∧
      (organizePhase guess total i c st).analytics.categories =
          bumpCat st.analytics.categories (get_category guess c.ext)) ∧
    (∀ files : List Candidate,
      (organize_files guess files true).analytics.security_scan.scanned = files.length) := by
  refine ⟨?_, ?_, ?_⟩
  · intro hs
    simp [organizePhase, hs]
  · intro hs hm
    refine ⟨?_, ?_, ?_⟩ <;> simp [organizePhase, hs, hm, addLog, addEvent]
  · intro files
    have hsec := organize_files_analytics guess files true
    by_cases h : files.length = 0
    · rw [hsec, if_pos h, h]
      simp [initState]
    · rw [hsec, if_neg h,
        (runLoop_counters guess files.length files 1 (initState files.length)).1]
      simp [initState]

/-- C2 amended witness: the vanished-file case and the move-failure case at
concrete inputs. -/
theorem C2_witness :
    organizePhase (fun _ => none) 1 1 c2Vanished (initState 1) =
      addLog ("Error moving " ++ c2Vanished.name ++ ": " ++ c2Vanished.statErr)
        (initState 1) ∧
    (organizePhase (fun _ => none) 1 1 c2MoveFail (initState 1)).analytics.total_size_bytes =
      (initState 1).analytics.total_size_bytes + c2MoveFail.size :=
  ⟨(C2_amended (fun _ => none) 1 1 c2Vanished (initState 1)).1 rfl,
   ((C2_amended (fun _ => none) 1 1 c2MoveFail (initState 1)).2.1 rfl rfl).2.1⟩

/-- C3: a candidate with an infected verdict in a security-enabled run is
never classified or moved to a category folder — whether or not its
quarantine move-in succeeds, the loop body leaves `total_size_bytes` and the
category counts unchanged, emits only the scan-phase progress event (no
organize-phase event), and appends only the threat log line (no `Moved:`
line). -/
theorem C3_infected_never_organized (guess : String → Option String)
    (total i : Nat) (c : Candidate) (st : RunState) (hInf : c.scanInfected = true) :
    (stepCandidate guess true total i c st).analytics.total_size_bytes =
        st.analytics.total_size_bytes ∧
      (stepCandidate guess true total i c st).analytics.categories =
        st.analytics.categories ∧
      (stepCandidate guess true total i c st).events =
        st.events ++ [(i * 50 / total, "🔒 Scanning " ++ c.name ++ "...")] ∧
      (stepCandidate guess true total i c st).logs =
        st.logs ++
          [if c.quarantineOk then
              "🚨 THREAT DETECTED & QUARANTINED: " ++ c.name ++ " → " ++ c.scanDetail
            else
              "🚨 INFECTED: " ++ c.name ++ " (quarantine failed: " ++ c.quarantineErr ++ ")"]
    := by
  cases hQ : c.quarantineOk <;>
    simp [stepCandidate, hInf, hQ, mapSec, addLog, addEvent]

/-- C3 witness: an infected candidate whose quarantine fails, at a concrete
state. -/
theorem C3_witness :
    (stepCandidate (fun _ => none) true 2 1 c1InfectedQFail
        (initState 2)).analytics.total_size_bytes =
      (initState 2).analytics.total_size_bytes ∧
    (stepCandidate (fun _ => none) true 2 1 c1InfectedQFail
        (initState 2)).analytics.categories = (initState 2).analytics.categories :=
  ⟨(C3_infected_never_organized (fun _ => none) 2 1 c1InfectedQFail (initState 2) rfl).1,
   (C3_infected_never_organized (fun _ => none) 2 1 c1InfectedQFail (initState 2) rfl).2.1⟩

/-- C10 (implicit): `infected` and `quarantined` are always equal in the
returned analytics — both are incremented together exactly when the
quarantine move-in succeeds — and an infected verdict whose quarantine fails
leaves both counters unchanged. -/
theorem C10_infected_eq_quarantined (guess : String → Option String)
    (files : List Candidate) (sec : Bool) :
    ((organize_files guess files sec).analytics.security_scan.infected =
        (organize_files guess files sec).analytics.security_scan.quarantined) ∧
      (∀ (total i : Nat) (c : Candidate) (st : RunState),
        c.scanInfected = true → c.quarantineOk = false →
        (stepCandidate guess true total i c st).analytics.security_scan.infected =
            st.analytics.security_scan.infected ∧
          (stepCandidate guess true total i c st).analytics.security_scan.quarantined =
            st.analytics.security_scan.quarantined) := by
  constructor
  · have hsec := organize_files_analytics guess files sec
    by_cases h : files.length = 0
    · rw [hsec, if_pos h]
      simp [initState]
    · rw [hsec, if_neg h]
      cases sec
      · rw [runLoop_nosec_sec]
        simp [initState]
      · rcases runLoop_counters guess files.length files 1 (initState files.length) with
          ⟨_, h2, h3, _⟩
        rw [h2, h3]
        simp [initState]
  · intro total i c st hInf hQ
    constructor
    · rw [stepCandidate_infected, hInf, hQ]
      simp
    · rw [stepCandidate_quarantined, hInf, hQ]
      simp

/-- C10 witness: the failed-quarantine step at a concrete input. -/
theorem C10_witness :
    (stepCandidate (fun _ => none) true 1 1 c1InfectedQFail
        (initState 1)).analytics.security_scan.infected =
      (initState 1).analytics.security_scan.infected ∧
    (stepCandidate (fun _ => none) true 1 1 c1InfectedQFail
        (initState 1)).analytics.security_scan.quarantined =
      (initState 1).analytics.security_scan.quarantined :=
  (C10_infected_eq_quarantined (fun _ => none) [] false).2 1 1 c1InfectedQFail
    (initState 1) rfl rfl

/-- A clean `.txt` candidate with every action succeeding. -/
def c4CleanA : Candidate := ⟨"a.txt", ".txt", 3, false, "OK", true, "", true, "", true, ""⟩

/-- A second clean `.txt` candidate with every action succeeding. -/
def c4CleanB : Candidate := ⟨"b.txt", ".txt", 4, false, "OK", true, "", true, "", true, ""⟩

/-- C4: with security enabled the percent sequence is NOT monotonically
non-decreasing: two clean candidates produce 25 (scan a), 75 (organize a),
50 (scan b), 100 (organize b), 100 (final) — it drops from 75 back to 50
between the first candidate's organize event and the second's scan event. -/
theorem C4_counterexample :
    (organize_files (fun _ => none) [c4CleanA, c4CleanB] true).events.map Prod.fst =
        [25, 75, 50, 100, 100] ∧
      ¬ List.Chain' (· ≤ ·)
          ((organize_files (fun _ => none) [c4CleanA, c4CleanB] true).events.map
            Prod.fst) := by
  refine ⟨by decide, ?_⟩
  intro hchain
  rw [(by decide :
    (organize_files (fun _ => none) [c4CleanA, c4CleanB] true).events.map Prod.fst =
      [25, 75, 50, 100, 100])] at hchain
  simp [List.chain'_cons] at hchain

/-- C4 (amended): with security disabled, the percent sequence of every run
is monotonically non-decreasing and ends at the final 100% event. -/
theorem C4_amended (guess : String → Option String) (files : List Candidate) :
    List.Chain' (· ≤ ·) ((organize_files guess files false).events.map Prod.fst) ∧
      ((organize_files guess files false).events.map Prod.fst).getLast? = some 100 := by
  by_cases h : files.length = 0
  · have hf : files = [] := List.length_eq_zero.mp h
    subst hf
    constructor
    · simp [organize_files]
    · simp [organize_files]
  · have hp := organize_files_false_pcts guess files h
    rw [hp]
    have htot : 0 < files.length := Nat.pos_of_ne_zero h
    have hinv := runLoop_nosec_pcts guess files.length files 1 (initState files.length)
      htot (by omega) (by simp [initState]) (by simp [initState]) (by simp [initState])
    exact ⟨chain'_concat_of_le hinv.1 hinv.2, List.getLast?_concat _⟩

/-- C5: `move_to_quarantine` fails with `FileNotFoundError` exactly when the
source is absent; otherwise it returns a destination inside the quarantine
listing that is the source name or `stem_N.suffix` with N ≥ 1, chosen free of
the existing entries (no overwrite); moving in two colliding files yields two
distinct entries, both present afterwards. -/
theorem C5_move_to_quarantine_correct (q : List String) (base suf : String) :
    (move_to_quarantine q false base suf = Except.error "FileNotFoundError") ∧
      (∀ dest q', move_to_quarantine q true base suf = Except.ok (dest, q') →
        dest ∉ q ∧ q' = q ++ [dest] ∧
          (dest = base ++ suf ∨ ∃ n, 1 ≤ n ∧ dest = pyName base suf n)) ∧
      (∀ dest₁ q₁ dest₂ q₂,
        move_to_quarantine q true base suf = Except.ok (dest₁, q₁) →
        move_to_quarantine q₁ true base suf = Except.ok (dest₂, q₂) →
        dest₁ ≠ dest₂ ∧ dest₁ ∈ q₂ ∧ dest₂ ∈ q₂) := by
  have hform : ∀ q₀ : List String, move_to_quarantine q₀ true base suf =
      Except.ok (quarantineDest q₀ base suf, q₀ ++ [quarantineDest q₀ base suf]) :=
    fun q₀ => rfl
  refine ⟨rfl, ?_, ?_⟩
  · intro dest q' hok
    rw [hform q] at hok
    have hpair := Except.ok.inj hok
    have hdest : quarantineDest q base suf = dest := congrArg Prod.fst hpair
    have hq' : q ++ [quarantineDest q base suf] = q' := congrArg Prod.snd hpair
    subst hdest
    exact ⟨quarantineDest_not_mem q base suf, hq'.symm, quarantineDest_shape q base suf⟩
  · intro dest₁ q₁ dest₂ q₂ h1 h2
    rw [hform q] at h1
    have hp1 := Except.ok.inj h1
    have hd1 : quarantineDest q base suf = dest₁ := congrArg Prod.fst hp1
    have hq1 : q ++ [quarantineDest q base suf] = q₁ := congrArg Prod.snd hp1
    rw [hform q₁] at h2
    have hp2 := Except.ok.inj h2
    have hd2 : quarantineDest q₁ base suf = dest₂ := congrArg Prod.fst hp2
    have hq2 : q₁ ++ [quarantineDest q₁ base suf] = q₂ := congrArg Prod.snd hp2
    have hnot : quarantineDest q₁ base suf ∉ q₁ := quarantineDest_not_mem q₁ base suf
    have hmem1 : dest₁ ∈ q₁ := by
      rw [← hq1, ← hd1]
      exact List.mem_append_right q (List.mem_cons_self _ _)
    refine ⟨?_, ?_, ?_⟩
    · intro heq
      rw [heq, ← hd2] at hmem1
      exact hnot hmem1
    · rw [← hq2]
      exact List.mem_append_left _ hmem1
    · rw [← hq2, ← hd2]
      exact List.mem_append_right _ (List.mem_cons_self _ _)

/-- C5 witness: quarantine already holds `x.exe`; moving in another `x.exe`
(stem `x`, suffix `.exe`) is accepted and lands at `x_1.exe`, leaving both
entries listed. -/
theorem C5_witness :
    "x_1.exe" ∉ ["x.exe"] ∧
      (["x.exe", "x_1.exe"] : List String) = ["x.exe"] ++ ["x_1.exe"] ∧
      ("x_1.exe" = "x" ++ ".exe" ∨ ∃ n, 1 ≤ n ∧ "x_1.exe" = pyName "x" ".exe" n) :=
  (C5_move_to_quarantine_correct ["x.exe"] "x" ".exe").2.1 "x_1.exe"
    ["x.exe", "x_1.exe"] rfl

theorem lookupCategory_mem (ext : String) :
    ∀ (tbl : List (String × List String)) (cat : String),
      lookupCategory ext tbl = some cat → cat ∈ tbl.map Prod.fst := by
  intro tbl
  induction tbl with
  | nil => intro cat h; exact absurd h (by simp [lookupCategory])
  | cons p rest ih =>
    intro cat h
    by_cases hp : ext ∈ p.2
    · simp only [lookupCategory, if_pos hp, Option.some.injEq] at h
      simp [← h]
    · simp only [lookupCategory, if_neg hp] at h
      simp [ih cat h]

theorem append_s_ne_empty (x : String) : x ++ "s" ≠ "" := by
  intro h
  have hdata := congrArg String.data h
  rw [String.data_append] at hdata
  have hs : ("s" : String).data = ['s'] := by decide
  have he : ("" : String).data = [] := by decide
  rw [hs, he] at hdata
  exact absurd hdata (by simp)

/-- C6: `get_category` looks its lower-cased extension up in the fixed table
and returns the first matching category; on a table miss it returns the
capitalized-and-pluralized primary type when the content-type guess is
image/video/audio, and `"Others"` otherwise (including when the guess is
`None`); the result is never the empty string. -/
theorem C6_get_category_correct (guess : String → Option String) (ext : String) :
    (∀ (j : Nat) (cat : String) (exts : List String),
        FILE_CATEGORIES.get? j = some (cat, exts) →
        pyLower ext ∈ exts →
        (∀ k cat' exts', k < j → FILE_CATEGORIES.get? k = some (cat', exts') →
          pyLower ext ∉ exts') →
        get_category guess ext = cat) ∧
      ((∀ p ∈ FILE_CATEGORIES, pyLower ext ∉ p.2) →
        ∀ mime, guess ("file" ++ pyLower ext) = some mime →
          (primaryType mime ∈ ["image", "video", "audio"] →
            get_category guess ext = pyCapitalize (primaryType mime) ++ "s") ∧
          (primaryType mime ∉ ["image", "video", "audio"] →
            get_category guess ext = "Others")) ∧
      ((∀ p ∈ FILE_CATEGORIES, pyLower ext ∉ p.2) →
        guess ("file" ++ pyLower ext) = none → get_category guess ext = "Others") ∧
      get_category guess ext ≠ "" := by
  refine ⟨?_, ?_, ?_, ?_⟩
  · intro j cat exts hj hmem hfirst
    have hl := lookupCategory_first_match (pyLower ext) FILE_CATEGORIES j cat exts
      hj hmem hfirst
    simp [get_category, hl]
  · intro hmiss mime hguess
    have hl := lookupCategory_none (pyLower ext) FILE_CATEGORIES hmiss
    constructor
    · intro hmt
      simp [get_category, hl, hguess, hmt]
    · intro hmt
      simp [get_category, hl, hguess, hmt]
  · intro hmiss hguess
    have hl := lookupCategory_none (pyLower ext) FILE_CATEGORIES hmiss
    simp [get_category, hl, hguess]
  · cases hl : lookupCategory (pyLower ext) FILE_CATEGORIES with
    | some cat =>
      have hmem := lookupCategory_mem (pyLower ext) FILE_CATEGORIES cat hl
      have hne : ∀ s ∈ FILE_CATEGORIES.map Prod.fst, s ≠ "" := by decide
      simp only [get_category, hl]
      exact hne cat hmem
    | none =>
      cases hg : guess ("file" ++ pyLower ext) with
      | some mime =>
        simp only [get_category, hl, hg]
        by_cases hmt : primaryType mime ∈ ["image", "video", "audio"]
        · rw [if_pos hmt]
          exact append_s_ne_empty _
        · rw [if_neg hmt]
          decide
      | none =>
        simp only [get_category, hl, hg]
        decide

/-- C6 witness: a fallback hit (`.xyz` guessed `audio/mpeg` gives `Audios`)
and a table hit (`.JPG` lower-cases into the second entry, `Images`). -/
theorem C6_witness :
    get_category (fun _ => some "audio/mpeg") ".xyz" =
        pyCapitalize (primaryType "audio/mpeg") ++ "s" ∧
      get_category (fun _ => none) ".JPG" = "Images" := by
  constructor
  · exact ((C6_get_category_correct (fun _ => some "audio/mpeg") ".xyz").2.1 (by decide)
      "audio/mpeg" rfl).1 (by decide)
  · exact (C6_get_category_correct (fun _ => none) ".JPG").1 1 "Images"
      [".jpg", ".jpeg", ".png", ".gif", ".bmp", ".svg"] (by decide) (by decide)
      (fun k c' e' hk hget => by
        have hk0 : k = 0 := by omega
        subst hk0
        have he : e' = [".pdf", ".docx", ".txt", ".pptx", ".xlsx", ".csv"] := by
          have h0 : FILE_CATEGORIES.get? 0 =
              some ("Documents", [".pdf", ".docx", ".txt", ".pptx", ".xlsx", ".csv"]) := rfl
          rw [h0] at hget
          exact (congrArg Prod.snd (Option.some.inj hget)).symm
        subst he
        decide)

/-- C7: the claimed "any unexpected exception from either strategy becomes a
clean verdict whose detail carries the error text" fails for strategy A: a
pyclamd-side exception is swallowed inside `_clamd_scan_file`, and
`scan_file` reports clean with detail exactly `"OK (clamd)"` — the error text
(here `"boom"`) is not contained in the detail. -/
theorem C7_counterexample :
    (scan_file ⟨true, ClamdOutcome.raises "boom", ClamscanOutcome.notInstalled⟩
        "p").infected = false ∧
      (scan_file ⟨true, ClamdOutcome.raises "boom", ClamscanOutcome.notInstalled⟩
        "p").detail = "OK (clamd)" ∧
      strContains
        (scan_file ⟨true, ClamdOutcome.raises "boom", ClamscanOutcome.notInstalled⟩
          "p").detail "boom" = false := by decide

/-- C7 (amended): `scan_file` is a total function (no exception escapes) and
every verdict carries the queried path with `infected`/`detail` fields.  When
the fallback is in use (pyclamd absent): a missing clamscan binary yields
clean with detail exactly `"clamscan-not-installed"`, and any other clamscan
exception yields clean with detail `"clamscan-error: <text>"`.  A pyclamd
exception is swallowed into a clean `"OK (clamd)"` verdict (error text not
preserved). -/
theorem C7_amended (env : ScanEnv) (path : String) :
    ((scan_file env path).path = path) ∧
      (env.havePyclamd = false → env.clamscan = ClamscanOutcome.notInstalled →
        scan_file env path = ⟨path, false, "clamscan-not-installed"⟩) ∧
      (∀ e, env.havePyclamd = false → env.clamscan = ClamscanOutcome.raises e →
        scan_file env path = ⟨path, false, "clamscan-error: " ++ e⟩) ∧
      (∀ e, env.havePyclamd = true → env.clamd = ClamdOutcome.raises e →
        scan_file env path = ⟨path, false, "OK (clamd)"⟩) := by
  refine ⟨?_, ?_, ?_, ?_⟩
  · rcases env with ⟨hp, cd, cs⟩
    cases hp
    · cases cs <;> simp [scan_file, clamscan_fallback] <;> split <;> simp <;> split <;> simp
    · cases cd <;> simp [scan_file, clamd_scan_file]
  · intro h1 h2
    simp [scan_file, h1, h2, clamscan_fallback]
  · intro e h1 h2
    simp [scan_file, h1, h2, clamscan_fallback]
  · intro e h1 h2
    simp [scan_file, h1, h2, clamd_scan_file]

/-- C7 amended witness: the three characterized outcomes at concrete
environments. -/
theorem C7_witness :
    scan_file ⟨false, ClamdOutcome.clean, ClamscanOutcome.notInstalled⟩ "f" =
        ⟨"f", false, "clamscan-not-installed"⟩ ∧
      scan_file ⟨false, ClamdOutcome.clean, ClamscanOutcome.raises "io-error"⟩ "f" =
        ⟨"f", false, "clamscan-error: " ++ "io-error"⟩ ∧
      scan_file ⟨true, ClamdOutcome.raises "down", ClamscanOutcome.notInstalled⟩ "f" =
        ⟨"f", false, "OK (clamd)"⟩ :=
  ⟨(C7_amended ⟨false, ClamdOutcome.clean, ClamscanOutcome.notInstalled⟩ "f").2.1 rfl rfl,
   (C7_amended ⟨false, ClamdOutcome.clean, ClamscanOutcome.raises "io-error"⟩ "f").2.2.1
     "io-error" rfl rfl,
   (C7_amended ⟨true, ClamdOutcome.raises "down", ClamscanOutcome.notInstalled⟩ "f").2.2.2
     "down" rfl rfl⟩

/-- C8: after a successful restore the entry is gone, but
`delete_from_quarantine` on that filename does NOT fail with NotFound — it is
a total Boolean-returning operation and returns `false` on the absent entry. -/
theorem C8_counterexample :
    restore_from_quarantine ["x.exe"] "restored" "x.exe" =
        Except.ok ("restored/x.exe", []) ∧
      delete_from_quarantine [] "x.exe" = (false, []) ∧
      (delete_from_quarantine [] "x.exe").1 ≠ true :=
  ⟨rfl, rfl, by decide⟩

/-- C8 (amended): a filename present in quarantine restores successfully to
`dest_folder/filename`; afterwards the entry is no longer present, and
`delete_from_quarantine` on that same filename returns `false` (idempotent
delete) rather than raising NotFound. -/
theorem C8_amended (q : List String) (dest filename : String)
    (hnodup : q.Nodup) (hmem : filename ∈ q) :
    restore_from_quarantine q dest filename =
        Except.ok (dest ++ "/" ++ filename, q.erase filename) ∧
      filename ∉ q.erase filename ∧
      delete_from_quarantine (q.erase filename) filename = (false, q.erase filename) := by
  have hout : filename ∉ q.erase filename := List.Nodup.not_mem_erase hnodup
  refine ⟨?_, hout, ?_⟩
  · simp [restore_from_quarantine, hmem]
  · simp [delete_from_quarantine, hout]

/-- C8 amended witness. -/
theorem C8_witness :
    restore_from_quarantine ["x.exe"] "d" "x.exe" =
        Except.ok ("d" ++ "/" ++ "x.exe", ["x.exe"].erase "x.exe") ∧
      "x.exe" ∉ (["x.exe"] : List String).erase "x.exe" ∧
      delete_from_quarantine ((["x.exe"] : List String).erase "x.exe") "x.exe" =
        (false, (["x.exe"] : List String).erase "x.exe") :=
  C8_amended ["x.exe"] "d" "x.exe" (by decide) (by decide)

/-- C9: a failed detection does NOT give match=null — when `magic.from_file`
raises, `verify_mime` reports `match = False` (with a `magic-error` detail)
even though no content-type was detected, so a "mismatch" IS reported for an
inconclusive detection. -/
theorem C9_counterexample :
    (verify_mime (MagicOutcome.raises "boom") "p" (some "image/")).matchResult =
        some false ∧
      (verify_mime (MagicOutcome.raises "boom") "p" (some "image/")).mime = none := by
  decide

/-- C9 (amended): `verify_mime` returns match=null when the detector is
unavailable or no (non-empty) expected prefix was supplied; on successful
detection it returns match=false exactly when the expected prefix is absent
from the detected content-type; but when detection itself raises it returns
match=false (not null) with a `magic-error` detail. -/
theorem C9_amended (path : String) (expected : Option String) (e mime p : String) :
    verify_mime MagicOutcome.unavailable path expected =
        ⟨path, none, none, "python-magic not installed"⟩ ∧
      verify_mime (MagicOutcome.raises e) path expected =
        ⟨path, none, some false, "magic-error: " ++ e⟩ ∧
      (verify_mime (MagicOutcome.detects mime) path none).matchResult = none ∧
      (p.isEmpty = false →
        (verify_mime (MagicOutcome.detects mime) path (some p)).matchResult =
          some (strContains mime p)) ∧
      ((verify_mime (MagicOutcome.detects mime) path (some p)).matchResult = some false →
        strContains mime p = false) := by
  refine ⟨rfl, rfl, rfl, ?_, ?_⟩
  · intro hp
    simp [verify_mime, hp]
  · intro h
    by_cases hp : p.isEmpty
    · simp [verify_mime, hp] at h
    · simp only [verify_mime, if_neg hp, Option.some.injEq] at h
      exact h

/-- C9 amended witness. -/
theorem C9_witness :
    verify_mime MagicOutcome.unavailable "f" (some "image/") =
        ⟨"f", none, none, "python-magic not installed"⟩ ∧
      (verify_mime (MagicOutcome.detects "text/plain") "f" (some "image/")).matchResult =
        some (strContains "text/plain" "image/") :=
  ⟨(C9_amended "f" (some "image/") "e" "text/plain" "image/").1,
   (C9_amended "f" (some "image/") "e" "text/plain" "image/").2.2.2.1 rfl⟩

end FileOrganizer
